import Mathlib

/-!
Shallow embedding of `src/showdown_agent/scripts/players/hli605.py`: the
`CustomAgent` heuristic decision function (`choose_move`) and its scoring
helpers.  External battle-library objects (battles, pokemon, moves, the
type chart) are modelled as plain data.  Floats are modelled as `ℚ`.

The type chart is an explicit parameter `chart`;
`damage_multiplier chart t ts` models the library call
`t.damage_multiplier(*ts)` (product of the single-type chart entries, the
poke-env semantics).  A list of defending types that contains `None`
makes that library call raise, which the code's guards turn into the
fallback value `1.0`.

Exceptions are modelled by two flags on the battle object:
`Battle.exc` means "library calls inside the agent's own try/except
guards raise" (each guarded helper then returns its except-branch
fallback), and `Battle.raiseInBody` means "an exception occurs at an
unguarded point of `choose_move`'s enumeration/evaluation region", which
is caught by the outer broad `except` of `choose_move`.
-/

namespace ShowdownAgent

attribute [local semireducible] Rat.add Rat.mul Rat.inv Rat.sub Rat.ofScientific

/-- A pokemon type, identified by its (upper-case) library name, e.g. `"FIRE"`. -/
abbrev PType := String

/-- Python `str.lower()` for the ASCII identifiers this code handles. -/
def strLower (s : String) : String :=
  String.mk (s.data.map Char.toLower)

/-- Python `str.upper()` for the ASCII identifiers this code handles. -/
def strUpper (s : String) : String :=
  String.mk (s.data.map Char.toUpper)

/-- Library semantics of `t.damage_multiplier(*ts)`: the product of the
single-entry chart multipliers of `t` against each defending type. -/
def damage_multiplier (chart : PType → PType → ℚ) (t : PType) (ts : List PType) : ℚ :=
  (ts.map (chart t)).prod

/-- `move.category` of the library. -/
inductive MoveCategory
  | physical
  | special
  | status
deriving DecidableEq

/-- The fields of a library move object that the agent reads.
`base_power = 0` models Python's `move.base_power or 0` collapsing. -/
structure Move where
  id : String
  base_power : Nat
  accuracy : Option ℚ
  type : Option PType
  category : MoveCategory
deriving DecidableEq

/-- The fields of a library pokemon object that the agent reads.
`types` may contain `none` entries (poke-env's `type_2` can be `None`);
`moves` lists the move-dict values in order; `last_move_id` models
`getattr(opp, "last_move_used", None) or getattr(opp, "last_move", None)`
followed by `.id`. -/
structure Pokemon where
  species : String
  types : List (Option PType)
  moves : List Move
  status : Option String
  current_hp_fraction : Option ℚ
  boosts : Option (List (String × Int))
  stats : Option (List (String × ℚ))
  base_stats : Option (List (String × ℚ))
  tera_type : Option PType
  fainted : Bool
  last_move_id : Option String
deriving DecidableEq

/-- Side conditions: library dict keys rendered as `str(k).lower()` would
be, paired with their integer values (layer counts / turn numbers). -/
abbrev SideConditions := List (String × Nat)

/-- The fields of a library battle object that the agent reads, plus the
two exception-model flags described in the file header. -/
structure Battle where
  battle_tag : Option String
  obj_id : String
  available_moves : List Move
  available_switches : List Pokemon
  active_pokemon : Option Pokemon
  opponent_active_pokemon : Option Pokemon
  side_conditions : SideConditions
  opponent_side_conditions : SideConditions
  opponent_team : List Pokemon
  turn : Nat
  can_tera : Bool
  exc : Bool
  raiseInBody : Bool
deriving DecidableEq

/-- The per-battle scratch dict created by `_get_battle_state`. -/
structure Scratch where
  tera_used : Bool
  opp_last_move_id : Option String
  opp_repeat_count : Int
  intent : Option String
  intent_turns : Int
deriving DecidableEq

/-- The default scratch entry inserted by `_get_battle_state`. -/
def defaultScratch : Scratch :=
  { tera_used := false, opp_last_move_id := none, opp_repeat_count := 0,
    intent := none, intent_turns := 0 }

/-- `self._state`: the agent's dict from battle keys to scratch entries. -/
abbrev AgentState := List (String × Scratch)

/-- Dict update `self._state[key] = v` (replace in place, insert if absent). -/
def setScratch (s : AgentState) (k : String) (v : Scratch) : AgentState :=
  match s with
  | [] => [(k, v)]
  | (k', v') :: rest => if k' = k then (k, v) :: rest else (k', v') :: setScratch rest k v

/-- `key = battle.battle_tag if hasattr(battle, "battle_tag") else str(id(battle))`. -/
def battleKey (b : Battle) : String :=
  b.battle_tag.getD b.obj_id

/-- Python numeric truthiness: `x or d` where a `None` or zero `x` falls
through to `d`. -/
def truthyOr (x : Option ℚ) (d : ℚ) : ℚ :=
  match x with
  | some v => if v = 0 then d else v
  | none => d

/-- `needle in hay` on Python strings (substring containment). -/
def strContains (hay needle : String) : Bool :=
  hay.data.tails.any (fun t => needle.data.isPrefixOf t)

/-- `_stage_multiplier`. -/
def stage_multiplier (stage : Int) : ℚ :=
  if 0 ≤ stage then (2 + (stage : ℚ)) / 2 else 2 / (2 - (stage : ℚ))

/-- `_type_effectiveness`; `exc` models its except-branch. -/
def type_effectiveness (chart : PType → PType → ℚ) (exc : Bool) (move : Move)
    (target : Option Pokemon) : ℚ :=
  match move.type, target with
  | none, _ => 1
  | _, none => 1
  | some mt, some tgt =>
    if exc then 1
    else if tgt.types = [] then 1
    else damage_multiplier chart mt (tgt.types.filterMap id)

/-- `_damage_multiplier_of_type`; the defending list is passed to the
library unfiltered, so a `none` entry makes the call raise and the
except-branch return `1.0`. -/
def damage_multiplier_of_type (chart : PType → PType → ℚ) (exc : Bool)
    (move_type : Option PType) (defender_types : List (Option PType)) : ℚ :=
  match move_type with
  | none => 1
  | some mt =>
    if defender_types = [] then 1
    else if exc ∨ defender_types.contains none then 1
    else damage_multiplier chart mt (defender_types.filterMap id)

/-- Boost lookup `boosts.get(k, 0) or 0` on an optional boost dict. -/
def boostGet (boosts : Option (List (String × Int))) (k : String) : Int :=
  match boosts with
  | some bs => (bs.lookup k).getD 0
  | none => 0

/-- The attack-stage boost read of `_move_damage_score` (elif-physical form). -/
def atkBoostOf (move : Move) (attacker : Option Pokemon) : Int :=
  match attacker with
  | some a =>
    match move.category with
    | .special => boostGet a.boosts "spa"
    | .physical => boostGet a.boosts "atk"
    | .status => 0
  | none => 0

/-- The defense-stage boost read of `_move_damage_score` (elif-physical form). -/
def defBoostOf (move : Move) (defender : Option Pokemon) : Int :=
  match defender with
  | some d =>
    match move.category with
    | .special => boostGet d.boosts "spd"
    | .physical => boostGet d.boosts "def"
    | .status => 0
  | none => 0

/-- `_move_damage_score`. -/
def move_damage_score (chart : PType → PType → ℚ) (exc : Bool) (move : Move)
    (attacker defender : Option Pokemon) : ℚ :=
  if move.base_power = 0 then 0.5
  else
    let accuracy := move.accuracy.getD 1
    let type_multiplier := type_effectiveness chart exc move defender
    let stab : ℚ :=
      if exc then 1
      else
        match move.type, attacker with
        | some mt, some atk => if atk.types.contains (some mt) then 1.5 else 1
        | _, _ => 1
    let atk_boost := if exc then 0 else atkBoostOf move attacker
    let def_boost := if exc then 0 else defBoostOf move defender
    let boost_factor := stage_multiplier atk_boost / max 0.5 (stage_multiplier def_boost)
    (move.base_power : ℚ) * accuracy * stab * type_multiplier * boost_factor

/-- `_move_damage_score_with_tera` (STAB may be 2.0 when the move's type is
both an original type and the tera type). -/
def move_damage_score_with_tera (chart : PType → PType → ℚ) (exc : Bool) (move : Move)
    (attacker defender : Option Pokemon) (tera_type : Option PType) : ℚ :=
  if move.base_power = 0 then 0.5
  else
    let accuracy := move.accuracy.getD 1
    let type_multiplier := type_effectiveness chart exc move defender
    let stab : ℚ :=
      if exc then 1
      else
        match move.type, attacker with
        | some mt, some atk =>
          let is_orig := atk.types.contains (some mt)
          let is_tera := tera_type = some mt
          if is_orig ∧ is_tera then 2
          else if is_orig ∨ is_tera then 1.5
          else 1
        | _, _ => 1
    let atk_boost := if exc then 0 else atkBoostOf move attacker
    let def_boost := if exc then 0 else defBoostOf move defender
    let boost_factor := stage_multiplier atk_boost / max 0.5 (stage_multiplier def_boost)
    (move.base_power : ℚ) * accuracy * stab * type_multiplier * boost_factor

/-- The attack-stage boost read of `_rough_damage_score_types` (plain-else
form: a status move reads the `atk` boost here). -/
def atkBoostRough (move : Move) (attacker : Option Pokemon) : Int :=
  match attacker with
  | some a =>
    match move.category with
    | .special => boostGet a.boosts "spa"
    | _ => boostGet a.boosts "atk"
  | none => 0

/-- The defense-stage boost read of `_rough_damage_score_types`. -/
def defBoostRough (move : Move) (defender : Option Pokemon) : Int :=
  match defender with
  | some d =>
    match move.category with
    | .special => boostGet d.boosts "spd"
    | _ => boostGet d.boosts "def"
  | none => 0

/-- `_rough_damage_score_types`. -/
def rough_damage_score_types (chart : PType → PType → ℚ) (exc : Bool) (move : Move)
    (attacker_types defender_types : List (Option PType))
    (attacker defender : Option Pokemon) : ℚ :=
  if move.base_power = 0 then 0
  else
    let acc := move.accuracy.getD 1
    let stab : ℚ :=
      if exc then 1
      else
        match move.type with
        | some mt => if attacker_types.contains (some mt) then 1.5 else 1
        | none => 1
    let type_mult := damage_multiplier_of_type chart exc move.type defender_types
    let atk_boost := if exc then 0 else atkBoostRough move attacker
    let def_boost := if exc then 0 else defBoostRough move defender
    let boost_factor := stage_multiplier atk_boost / max 0.5 (stage_multiplier def_boost)
    (move.base_power : ℚ) * acc * stab * type_mult * boost_factor

/-- `_normalize_damage_score`. -/
def normalize_damage_score (dmg : ℚ) : ℚ :=
  min (dmg / 220) 1.5

/-- `_normalize_utility_score`. -/
def normalize_utility_score (util : ℚ) : ℚ :=
  min (util / 150) 1.2

/-- `_has_side_condition`. -/
def has_side_condition (exc : Bool) (side_conditions : SideConditions)
    (name_substring : String) : Bool :=
  if exc then false
  else side_conditions.any (fun kv => strContains (strLower kv.1) (strLower name_substring))

/-- Python `v or 1` on a layer count. -/
def layersOr1 (v : Nat) : Nat :=
  if v = 0 then 1 else v

/-- `_hazard_count`. -/
def hazard_count (exc : Bool) (side_conditions : SideConditions) : Nat :=
  if exc then 0
  else
    side_conditions.foldl
      (fun count kv =>
        let name := strLower kv.1
        if strContains name "stealthrock" then count + 1
        else if strContains name "spikes" ∧ ¬ strContains name "toxic" then
          count + layersOr1 kv.2
        else if strContains name "toxicspikes" then count + layersOr1 kv.2
        else if strContains name "stickyweb" then count + 1
        else count)
      0

/-- `_hazard_pressure`. -/
def hazard_pressure (exc : Bool) (side_conditions : SideConditions) : ℚ :=
  if exc then 0
  else
    side_conditions.foldl
      (fun pressure kv =>
        let name := strLower kv.1
        let layers : ℚ := (layersOr1 kv.2 : ℚ)
        if strContains name "stealthrock" then pressure + 1.2
        else if strContains name "spikes" ∧ ¬ strContains name "toxic" then
          pressure + 0.9 * layers
        else if strContains name "toxicspikes" then pressure + 0.8 * layers
        else if strContains name "stickyweb" then pressure + 1.5
        else pressure)
      0

/-- `_defog_value`. -/
def defog_value (exc : Bool) (b : Battle) : ℚ :=
  let our_pressure := hazard_pressure exc b.side_conditions
  let opp_pressure := hazard_pressure exc b.opponent_side_conditions
  let value : ℚ :=
    if 1 ≤ our_pressure then 110 + 30 * (our_pressure - max 0 (opp_pressure - 0.5)) else 0
  let value :=
    if has_side_condition exc b.side_conditions "stickyweb" then value + 80 else value
  max 0 value

/-- `_rapid_spin_value`. -/
def rapid_spin_value (exc : Bool) (b : Battle) : ℚ :=
  let our_pressure := hazard_pressure exc b.side_conditions
  let val : ℚ := if 0 < our_pressure then 95 + 35 * our_pressure else 0
  max 0 val

/-- `_danger_multiplier`: worst-case opponent STAB multiplier against us. -/
def danger_multiplier (chart : PType → PType → ℚ) (exc : Bool)
    (our_pokemon opp_pokemon : Option Pokemon) : ℚ :=
  match our_pokemon, opp_pokemon with
  | some u, some o =>
    if exc then 1
    else
      (o.types.filterMap id).foldl
        (fun worst t =>
          let mult := damage_multiplier chart t (u.types.filterMap id)
          if worst < mult then mult else worst)
        1
  | _, _ => 1

/-- `_switch_safety_score`: lower is safer; worst-case opponent STAB
multiplier against the candidate. -/
def switch_safety_score (chart : PType → PType → ℚ) (exc : Bool)
    (mon opponent : Option Pokemon) : ℚ :=
  match mon, opponent with
  | some m, some o =>
    if exc then 1
    else
      (o.types.filterMap id).foldl
        (fun worst t =>
          let mult := damage_multiplier chart t (m.types.filterMap id)
          if worst < mult then mult else worst)
        1
  | _, _ => 1

/-- `_switch_offense_score`. -/
def switch_offense_score (chart : PType → PType → ℚ) (exc : Bool)
    (mon opponent : Option Pokemon) : ℚ :=
  match mon, opponent with
  | some m, some o =>
    if exc then 0
    else if m.moves ≠ [] then
      m.moves.foldl
        (fun best mv =>
          if mv.base_power = 0 ∧ mv.id ≠ "hex" ∧ mv.id ≠ "ruination" then best
          else
            let score := move_damage_score chart exc mv (some m) (some o)
            let score := if mv.id = "hex" ∧ o.status ≠ none then score * 1.9 else score
            max best score)
        0
    else
      (m.types.filterMap id).foldl
        (fun best t =>
          max best (90 * damage_multiplier chart t (o.types.filterMap id)))
        0
  | _, _ => 0

/-- `_opponent_has_type`. -/
def opponent_has_type (exc : Bool) (opp : Option Pokemon) (type_name : String) : Bool :=
  match opp with
  | none => false
  | some o =>
    if o.types = [] then false
    else if exc then false
    else o.types.any (fun t =>
      match t with
      | some tn => strUpper tn = strUpper type_name
      | none => false)

/-- `_is_endgame`. -/
def is_endgame (exc : Bool) (b : Battle) : Bool :=
  if exc then false
  else (b.opponent_team.filter (fun mon => ¬ mon.fainted)).length ≤ 2

/-- Statistic read `(mon.stats or {}).get(k) or (mon.base_stats or {}).get(k, 0)`. -/
def speStatOf (mon : Pokemon) : ℚ :=
  match (mon.stats.getD []).lookup "spe" with
  | some v => if v ≠ 0 then v else ((mon.base_stats.getD []).lookup "spe").getD 0
  | none => ((mon.base_stats.getD []).lookup "spe").getD 0

/-- `_is_likely_faster`. -/
def is_likely_faster (exc : Bool) (our_mon opp_mon : Option Pokemon) : Bool :=
  if exc then false
  else
    match our_mon, opp_mon with
    | some u, some o =>
      let our_spe := speStatOf u
      let opp_spe := speStatOf o
      let boost := boostGet u.boosts "spe"
      let our_spe := if boost ≠ 0 then our_spe * stage_multiplier boost else our_spe
      opp_spe ≤ our_spe
    | _, _ => false

/-- `_physical_lean`. -/
def physical_lean (exc : Bool) (mon : Option Pokemon) : ℚ :=
  if exc then 1
  else
    match mon with
    | none => 1
    | some m =>
      let atk := ((m.base_stats.getD []).lookup "atk").getD 100
      let spa := ((m.base_stats.getD []).lookup "spa").getD 100
      if atk ≤ 0 ∧ spa ≤ 0 then 0.5
      else max 0 ((atk - spa) / max 1 (atk + spa)) * 2 + (if spa < atk then 1 else 0.5)

/-- `_total_boost`. -/
def total_boost (exc : Bool) (mon : Option Pokemon) : Int :=
  if exc then 0
  else
    match mon with
    | none => 0
    | some m =>
      match m.boosts with
      | none => 0
      | some bs => (bs.map (fun kv => kv.2)).sum

/-- `_mon_has_move`. -/
def mon_has_move (exc : Bool) (mon : Option Pokemon) (move_id : String) : Bool :=
  if exc then false
  else
    match mon with
    | none => false
    | some m =>
      if m.moves = [] then false
      else m.moves.any (fun mv => strLower mv.id = strLower move_id)

/-- `_is_gholdengo`. -/
def is_gholdengo (exc : Bool) (mon : Option Pokemon) : Bool :=
  if exc then false
  else
    match mon with
    | none => false
    | some m => strLower m.species = "gholdengo"

/-- `_predict_opp_will_defog`. -/
def predict_opp_will_defog (exc : Bool) (b : Battle) : Bool :=
  1.5 ≤ hazard_pressure exc b.opponent_side_conditions

/-- `_hard_walls`: do our (defender) types strongly resist at least two of
the opponent's STAB types? -/
def hard_walls (chart : PType → PType → ℚ) (exc : Bool)
    (our_types opp_types : List (Option PType)) : Bool :=
  if exc then false
  else
    2 ≤ ((opp_types.filterMap id).filter
      (fun t => damage_multiplier_of_type chart exc (some t) our_types ≤ 0.5)).length

/-- `_types_after_tera` (the `move` argument of the source is unused). -/
def types_after_tera (exc : Bool) (active : Pokemon) (b : Battle) : List (Option PType) :=
  if exc then active.types
  else if ¬ b.can_tera then active.types
  else
    match active.tera_type with
    | none => active.types
    | some tt => [some tt]

/-- `_opponent_reply_damage_score`.  An empty `defender_types` list models
the falsy `defender_types or (us.types or [])` default. -/
def opponent_reply_damage_score (chart : PType → PType → ℚ) (exc : Bool) (b : Battle)
    (defender_types : List (Option PType)) : ℚ :=
  match b.opponent_active_pokemon, b.active_pokemon with
  | some opp, some us =>
    let dts := if defender_types = [] then us.types else defender_types
    let best_dmg :=
      if opp.moves ≠ [] then
        opp.moves.foldl
          (fun best mv =>
            if mv.base_power = 0 then best
            else max best (rough_damage_score_types chart exc mv opp.types dts
              (some opp) (some us)))
          0
      else
        (opp.types.filterMap id).foldl
          (fun best t =>
            max best (90 * 1.5 * damage_multiplier_of_type chart exc (some t) dts))
          0
    let clear_desire := hazard_pressure exc b.opponent_side_conditions
    let clear_bonus : ℚ := if 1.5 ≤ clear_desire then 0.15 else 0
    let switch_penalty : ℚ :=
      if hard_walls chart exc dts opp.types then -0.4 * best_dmg else 0
    max (best_dmg * (1 - clear_bonus)) (best_dmg + switch_penalty)
  | _, _ => 0

/-- `_opponent_reply_damage_score_vs`. -/
def opponent_reply_damage_score_vs (chart : PType → PType → ℚ) (exc : Bool) (b : Battle)
    (defender : Option Pokemon) : ℚ :=
  match b.opponent_active_pokemon, defender with
  | some opp, some dfd =>
    let dtypes := dfd.types
    if dtypes = [] then 0
    else if opp.moves ≠ [] then
      opp.moves.foldl
        (fun best mv =>
          if mv.base_power = 0 then best
          else max best (rough_damage_score_types chart exc mv opp.types dtypes
            (some opp) (some dfd)))
        0
    else
      (opp.types.filterMap id).foldl
        (fun best t =>
          max best (90 * 1.5 * damage_multiplier_of_type chart exc (some t) dtypes))
        0
  | _, _ => 0

/-- `_util_and_damage_score`, returning `(util, dmg)`. -/
def util_and_damage_score (chart : PType → PType → ℚ) (exc : Bool) (b : Battle)
    (move : Move) (tera : Bool) : ℚ × ℚ :=
  let active := b.active_pokemon
  let opponent := b.opponent_active_pokemon
  let mid := strLower move.id
  let dmg :=
    if tera then
      move_damage_score_with_tera chart exc move active opponent
        (match active with | some a => a.tera_type | none => none)
    else move_damage_score chart exc move active opponent
  let danger := danger_multiplier chart exc active opponent
  let endgame := is_endgame exc b
  let util : ℚ :=
    if mid = "stealthrock" then
      if ¬ has_side_condition exc b.opponent_side_conditions "stealthrock" then
        120 - 6 * (b.turn : ℚ)
      else 0
    else if mid = "spikes" then 95 - 5 * (b.turn : ℚ)
    else if mid = "toxicspikes" then
      if ¬ has_side_condition exc b.opponent_side_conditions "toxicspikes" then
        let steel_or_poison_active :=
          opponent_has_type exc opponent "STEEL" ∨ opponent_has_type exc opponent "POISON"
        (85 - 5 * (b.turn : ℚ)) * (if steel_or_poison_active then 0.6 else 1)
      else 0
    else if mid = "defog" then defog_value exc b
    else if mid = "rapidspin" then rapid_spin_value exc b
    else if mid = "willowisp" then
      if opponent ≠ none ∧ (opponent.bind Pokemon.status) = none ∧
          ¬ opponent_has_type exc opponent "FIRE" then
        let u := 95 * physical_lean exc opponent
        if 1.75 ≤ danger then u * 0.75 else u
      else 0
    else if mid = "dragontail" then
      if ¬ opponent_has_type exc opponent "FAIRY" then
        let has_haz := 0 < hazard_count exc b.opponent_side_conditions
        let u : ℚ := 80 + (if has_haz then 40 else 0) +
          (if 2 ≤ total_boost exc opponent then 40 else 0)
        if 1.75 ≤ danger then u * 0.8 else u
      else 0
    else if mid = "calmmind" then
      if danger ≤ 1 ∧ b.turn ≤ 12 ∧ ¬ endgame then 80 else 0
    else 0
  let util :=
    if mid = "ruination" then
      let opp_hp_frac :=
        match opponent with
        | some o => truthyOr o.current_hp_fraction 1
        | none => 1
      let acc := move.accuracy.getD 1
      util + 120 * opp_hp_frac * acc
    else util
  let dmg :=
    if mid = "overheat" ∨ mid = "dracometeor" ∨ mid = "leafstorm" then dmg * 0.9 else dmg
  let dmg :=
    if mid = "closecombat" ∨ mid = "headlongrush" then dmg * 0.95 else dmg
  let dmg :=
    if mid = "hex" ∧ opponent ≠ none ∧ (opponent.bind Pokemon.status) ≠ none then
      dmg * 1.9
    else dmg
  (util, dmg)

/-- `_progress_value`. -/
def progress_value (exc : Bool) (b : Battle) (move : Move) : ℚ :=
  let endgame := is_endgame exc b
  let mid := strLower move.id
  if endgame then
    if 0 < move.base_power then 0.1
    else if mid = "calmmind" then 0.05
    else -0.05
  else if mid = "stealthrock" ∨ mid = "spikes" ∨ mid = "toxicspikes" then 0.15
  else 0

/-- A candidate action: the `{"type": "move", ...}` / `{"type": "switch", ...}`
dicts built by `_enumerate_actions`. -/
inductive Action
  | move (move : Move) (tera : Bool)
  | switch (target : Pokemon)
deriving DecidableEq

/-- The tail of `_evaluate_action`'s move branch: combine the agent's own
(already gated) normalized components with the normalized opponent-reply
score, weighted 0.7 when likely faster and 0.85 otherwise, then apply the
weak-tera downrank factor 0.9 when it triggered. -/
def moveNetFromComponents (our_damage_norm util_norm progress_norm : ℚ)
    (faster tera_downrank : Bool) (opp_damage_reply : ℚ) : ℚ :=
  let opp_damage_norm := normalize_damage_score opp_damage_reply
  let reply_weight : ℚ := if faster then 0.7 else 0.85
  let net := (our_damage_norm + util_norm + progress_norm) - reply_weight * opp_damage_norm
  if tera_downrank then net * 0.9 else net

/-- `_evaluate_action`. -/
def evaluate_action (chart : PType → PType → ℚ) (exc : Bool) (b : Battle)
    (action : Action) : ℚ :=
  match b.active_pokemon, b.opponent_active_pokemon with
  | some active, some opponent =>
    match action with
    | .move move tera =>
      let ud := util_and_damage_score chart exc b move tera
      let our_damage_norm := normalize_damage_score ud.2
      let util_norm := normalize_utility_score ud.1
      let danger := danger_multiplier chart exc (some active) (some opponent)
      let gate : Bool :=
        (match move.accuracy with | some a => decide (a < 0.85) | none => false)
          && decide (1.75 ≤ danger)
      let our_damage_norm := if gate then our_damage_norm * 0.9 else our_damage_norm
      let util_norm := if gate then util_norm * 0.9 else util_norm
      let progress_norm := progress_value exc b move
      let our_types_after :=
        if tera then types_after_tera exc active b else active.types
      let opp_damage_reply := opponent_reply_damage_score chart exc b our_types_after
      let faster := is_likely_faster exc (some active) (some opponent)
      let tera_downrank :=
        if tera then
          let baseline_move_dmg := move_damage_score chart exc move (some active) (some opponent)
          let base_norm := normalize_damage_score baseline_move_dmg
          if 0 < base_norm then
            decide ((our_damage_norm - base_norm) / max 0.001 base_norm < 0.2)
          else false
        else false
      moveNetFromComponents our_damage_norm util_norm progress_norm faster
        tera_downrank opp_damage_reply
    | .switch target =>
      let _safety := switch_safety_score chart exc (some target) (some opponent)
      let offense := switch_offense_score chart exc (some target) (some opponent)
      let opp_damage_vs_target := opponent_reply_damage_score_vs chart exc b (some target)
      let opp_damage_norm := normalize_damage_score opp_damage_vs_target
      let util_norm : ℚ :=
        (if 1.5 ≤ hazard_pressure exc b.side_conditions ∧
            mon_has_move exc (some target) "defog" then (0.3 : ℚ) else 0)
        + (if predict_opp_will_defog exc b ∧ is_gholdengo exc (some target) then
            (0.4 : ℚ) else 0)
      let offense_norm := normalize_damage_score offense * 0.5
      util_norm + offense_norm - 0.8 * opp_damage_norm
  | _, _ => 0

/-- `_has_commit_intent`. -/
def has_commit_intent (st : Scratch) : Bool :=
  (st.intent = some "hazard_stack" ∨ st.intent = some "cm_push") ∧ 0 < st.intent_turns

/-- `_intent_still_safe`. -/
def intent_still_safe (chart : PType → PType → ℚ) (exc : Bool) (b : Battle) : Bool :=
  match b.active_pokemon, b.opponent_active_pokemon with
  | some a, some o => danger_multiplier chart exc (some a) (some o) ≤ 1.3
  | _, _ => false

/-- `_move_for_intent`. -/
def move_for_intent (b : Battle) (st : Scratch) : Option Move :=
  if st.intent = some "hazard_stack" then
    b.available_moves.find? (fun m =>
      strLower m.id = "stealthrock" ∨ strLower m.id = "spikes" ∨ strLower m.id = "toxicspikes")
  else if st.intent = some "cm_push" then
    b.available_moves.find? (fun m => strLower m.id = "calmmind")
  else none

/-- `_maybe_set_intent_from_move`. -/
def maybe_set_intent_from_move (move : Move) (st : Scratch) : Scratch :=
  let mid := strLower move.id
  if mid = "stealthrock" ∨ mid = "spikes" ∨ mid = "toxicspikes" then
    { st with intent := some "hazard_stack", intent_turns := 2 }
  else if mid = "calmmind" then
    { st with intent := some "cm_push", intent_turns := 2 }
  else if 0 < st.intent_turns then { st with intent_turns := st.intent_turns - 1 }
  else { st with intent := none }

/-- `_update_opponent_repeat_tracker` as a pure scratch update. -/
def update_opponent_repeat_tracker (b : Battle) (st : Scratch) : Scratch :=
  match b.opponent_active_pokemon with
  | none => st
  | some opp =>
    match opp.last_move_id with
    | none => { st with opp_repeat_count := max 0 (st.opp_repeat_count - 1) }
    | some move_id =>
      if st.opp_last_move_id = some move_id then
        { st with opp_repeat_count := st.opp_repeat_count + 1 }
      else
        { st with opp_last_move_id := some move_id, opp_repeat_count := 1 }

/-- One iteration of the Python selection loop `if score(a) > best_score:
best, best_score = a, score(a)` (a `None` accumulator stands for the
initial `-inf` best score, which any first score beats). -/
def loopStep {α : Type} (score : α → ℚ) (best : Option (α × ℚ)) (a : α) :
    Option (α × ℚ) :=
  match best with
  | none => some (a, score a)
  | some (bb, bs) => if bs < score a then some (a, score a) else some (bb, bs)

/-- The Python selection loop `best = None; best_score = -inf; for a in l:
if score(a) > best_score: best, best_score = a, score(a)`: returns the
retained element and its score. -/
def loopBest {α : Type} (score : α → ℚ) (l : List α) : Option (α × ℚ) :=
  l.foldl (loopStep score) none

/-- Stable insertion used by `stableSortBy`: `lt x y` means `x` must come
strictly before `y`; on ties the incoming (originally later) element is
placed after. -/
def insertBy {α : Type} (lt : α → α → Bool) (x : α) : List α → List α
  | [] => [x]
  | y :: ys => if lt x y then x :: y :: ys else y :: insertBy lt x ys

/-- Python's stable `list.sort(key=...)`, as a left-to-right stable
insertion sort on a strict before-ordering. -/
def stableSortBy {α : Type} (lt : α → α → Bool) (l : List α) : List α :=
  l.foldl (fun acc x => insertBy lt x acc) []

/-- `_would_be_ko_likely`. -/
def would_be_ko_likely (chart : PType → PType → ℚ) (exc : Bool) (b : Battle) : Bool :=
  match b.active_pokemon with
  | none => false
  | some active =>
    let opp_best := opponent_reply_damage_score chart exc b active.types
    let hp_frac := truthyOr active.current_hp_fraction 1
    hp_frac + 0.15 < normalize_damage_score opp_best

/-- The score `(-1.0 * safety) + 0.4 * normalized offense + util` that
`_pick_best_switch` maximizes over the available switches. -/
def pick_switch_score (chart : PType → PType → ℚ) (exc : Bool) (b : Battle)
    (mon : Pokemon) : ℚ :=
  let opponent := b.opponent_active_pokemon
  let safety := switch_safety_score chart exc (some mon) opponent
  let offense := switch_offense_score chart exc (some mon) opponent
  let util : ℚ :=
    (if predict_opp_will_defog exc b ∧ is_gholdengo exc (some mon) then (0.5 : ℚ) else 0)
    + (if 2 ≤ hazard_pressure exc b.side_conditions ∧
        mon_has_move exc (some mon) "defog" then (0.4 : ℚ) else 0)
  (-1) * safety + 0.4 * normalize_damage_score offense + util

/-- `_pick_best_switch`. -/
def pick_best_switch (chart : PType → PType → ℚ) (exc : Bool) (b : Battle) :
    Option Pokemon :=
  if b.available_switches = [] then none
  else (loopBest (pick_switch_score chart exc b) b.available_switches).map (fun p => p.1)

/-- `_enumerate_actions` (reads `tera_used` off the current scratch entry). -/
def enumerate_actions (chart : PType → PType → ℚ) (exc : Bool) (b : Battle)
    (st : Scratch) : List Action :=
  let our_moves := b.available_moves
  let prescores := our_moves.map (fun m =>
    (m, move_damage_score chart exc m b.active_pokemon b.opponent_active_pokemon))
  let sorted := stableSortBy (fun x y => y.2 < x.2) prescores
  let top2 := (sorted.take 2).map (fun p => p.1)
  let moveActions := our_moves.map (fun m => Action.move m false)
  let can_tera := b.can_tera && ! st.tera_used
  let teraActions :=
    if can_tera ∧ top2 ≠ [] ∧ (3 ≤ b.turn ∨ would_be_ko_likely chart exc b) then
      top2.map (fun m => Action.move m true)
    else []
  let scored_switches := b.available_switches.map (fun mon =>
    (mon, switch_safety_score chart exc (some mon) b.opponent_active_pokemon,
      switch_offense_score chart exc (some mon) b.opponent_active_pokemon))
  let sorted_switches := stableSortBy
    (fun x y => x.2.1 < y.2.1 ∨ (x.2.1 = y.2.1 ∧ y.2.2 < x.2.2)) scored_switches
  let switchActions := (sorted_switches.take 3).map (fun p => Action.switch p.1)
  moveActions ++ teraActions ++ switchActions

/-- The action object the framework receives: `create_order(move)`,
`create_order(move, terastallize=True)`, `create_order(pokemon)`, or one
of the two library random fallbacks. -/
inductive Order
  | move (m : Move) (terastallize : Bool)
  | switch (target : Pokemon)
  | randomMove
  | randomSwitch
deriving DecidableEq

/-- The scratch entry after `_get_battle_state` plus
`_update_opponent_repeat_tracker` have run for this battle. -/
def scratch_after_tracker (s : AgentState) (b : Battle) : Scratch :=
  update_opponent_repeat_tracker b ((s.lookup (battleKey b)).getD defaultScratch)

/-- Whether the commit-intent early return of `choose_move` fires. -/
def intent_honored (chart : PType → PType → ℚ) (b : Battle) (st1 : Scratch) : Bool :=
  (has_commit_intent st1 && intent_still_safe chart b.exc b)
    && (move_for_intent b st1).isSome

/-- The enumeration / evaluation region of `choose_move` (everything after
the tracker update and the commit-intent check).  This is the region
where the broad outer `except` can be triggered (`b.raiseInBody`); the
handler re-checks `battle.available_moves`.  State mutations made before
the raise (the tracker update, i.e. `st1`) persist. -/
def choose_move_rest (chart : PType → PType → ℚ) (s : AgentState) (key : String)
    (b : Battle) (st1 : Scratch) : AgentState × Order :=
  if b.raiseInBody then
    (setScratch s key st1,
      if b.available_moves = [] then Order.randomSwitch else Order.randomMove)
  else
    let candidate_actions := enumerate_actions chart b.exc b st1
    match loopBest (evaluate_action chart b.exc b) candidate_actions with
    | none =>
      match b.available_moves with
      | m :: _ => (setScratch s key st1, Order.move m false)
      | [] => (setScratch s key st1, Order.randomMove)
    | some (best, _) =>
      match best with
      | .move m tera =>
        let st2 := maybe_set_intent_from_move m st1
        if tera then (setScratch s key { st2 with tera_used := true }, Order.move m true)
        else (setScratch s key st2, Order.move m false)
      | .switch target => (setScratch s key st1, Order.switch target)

/-- `choose_move`, threading the agent's `self._state` explicitly. -/
def choose_move (chart : PType → PType → ℚ) (s : AgentState) (b : Battle) :
    AgentState × Order :=
  let key := battleKey b
  let st0 := (s.lookup key).getD defaultScratch
  if b.available_moves = [] then
    match pick_best_switch chart b.exc b with
    | some sw => (setScratch s key st0, Order.switch sw)
    | none => (setScratch s key st0, Order.randomSwitch)
  else
    let st1 := scratch_after_tracker s b
    if has_commit_intent st1 && intent_still_safe chart b.exc b then
      match move_for_intent b st1 with
      | some m =>
        (setScratch s key { st1 with intent_turns := st1.intent_turns - 1 },
          Order.move m false)
      | none => choose_move_rest chart s key b st1
    else choose_move_rest chart s key b st1

/-- A sequence of `choose_move` calls, threading the agent state. -/
def run_battles (chart : PType → PType → ℚ) (s : AgentState) :
    List Battle → AgentState × List Order
  | [] => (s, [])
  | b :: rest =>
    let p := choose_move chart s b
    let q := run_battles chart p.1 rest
    (q.1, p.2 :: q.2)

/-- Whether an order is terastallize-flagged. -/
def isTeraOrder : Order → Bool
  | Order.move _ true => true
  | _ => false

/-- How many returned orders are terastallize-flagged. -/
def teraCount (os : List Order) : Nat :=
  (os.filter isTeraOrder).length

/-- The recorded `tera_used` flag for battle key `k`. -/
def teraUsedAt (s : AgentState) (k : String) : Bool :=
  ((s.lookup k).getD defaultScratch).tera_used

/-- The maximum of the scores of a candidate list (0 for an empty list). -/
def maxScore {α : Type} (score : α → ℚ) : List α → ℚ
  | [] => 0
  | [a] => score a
  | a :: b :: l => max (score a) (maxScore score (b :: l))

/-- The first element, in list order, whose score equals the maximum score. -/
def firstArgmax {α : Type} (score : α → ℚ) (l : List α) : Option α :=
  l.find? (fun a => score a = maxScore score l)

/-- The order emitted for a chosen candidate action. -/
def orderOfAction : Action → Order
  | .move m tera => Order.move m tera
  | .switch target => Order.switch target

/-- A neutral type chart: every matchup multiplier is 1. -/
def chartNeutral : PType → PType → ℚ := fun _ _ => 1

/-- A tiny concrete chart fragment (Ghost/Psychic/Dark/Normal matchups). -/
def chartCex : PType → PType → ℚ := fun a d =>
  if a = "GHOST" ∧ d = "PSYCHIC" then 2
  else if a = "GHOST" ∧ d = "DARK" then 0
  else if a = "NORMAL" ∧ d = "GHOST" then 0
  else if a = "DARK" ∧ d = "GHOST" then 2
  else 1

/-- Sample move: Tackle. -/
def tackle : Move :=
  { id := "tackle", base_power := 40, accuracy := some 1, type := some "NORMAL",
    category := MoveCategory.physical }

/-- Sample move: Recover (a healing move; zero base power). -/
def recoverMove : Move :=
  { id := "recover", base_power := 0, accuracy := none, type := some "NORMAL",
    category := MoveCategory.status }

/-- Sample move: Sunsteel Strike. -/
def sunsteel : Move :=
  { id := "sunsteelstrike", base_power := 100, accuracy := some 1, type := some "STEEL",
    category := MoveCategory.physical }

/-- Sample move: Shadow Ball. -/
def shadowball : Move :=
  { id := "shadowball", base_power := 80, accuracy := some 1, type := some "GHOST",
    category := MoveCategory.special }

/-- A pokemon with the given species, types and moves and default other fields. -/
def mkPokemon (species : String) (types : List (Option PType)) (moves : List Move) :
    Pokemon :=
  { species := species, types := types, moves := moves, status := none,
    current_hp_fraction := some 1, boosts := none, stats := none, base_stats := none,
    tera_type := none, fainted := false, last_move_id := none }

/-- Necrozma-Dusk-Mane at half HP. -/
def necrozmaHalf : Pokemon :=
  { mkPokemon "necrozmaduskmane" [some "PSYCHIC", some "STEEL"] [sunsteel, recoverMove]
    with current_hp_fraction := some 0.5 }

/-- A neutral opponent. -/
def blissey : Pokemon := mkPokemon "blissey" [some "NORMAL"] [tackle]

/-- Filler teammates for the opponent team. -/
def filler (n : String) : Pokemon := mkPokemon n [some "NORMAL"] []

/-- A battle state: two usable moves (an attack and Recover), half HP, a
neutral matchup, no switches. -/
def battle4 : Battle :=
  { battle_tag := some "b4", obj_id := "obj4",
    available_moves := [sunsteel, recoverMove], available_switches := [],
    active_pokemon := some necrozmaHalf, opponent_active_pokemon := some blissey,
    side_conditions := [], opponent_side_conditions := [],
    opponent_team := [blissey, filler "chansey", filler "clefable"],
    turn := 5, can_tera := false, exc := false, raiseInBody := false }

/-- A frail psychic-type attacker. -/
def abra : Pokemon := mkPokemon "abra" [some "PSYCHIC"] [tackle]

/-- A ghost-type opponent threatening super-effective STAB. -/
def gengar : Pokemon := mkPokemon "gengar" [some "GHOST"] [shadowball]

/-- A dark-type switch candidate immune to the opponent's STAB. -/
def umbreon : Pokemon := mkPokemon "umbreon" [some "DARK"] []

/-- A battle state: threat multiplier 2, one weak move, no switches. -/
def battle5 : Battle :=
  { battle4 with
    battle_tag := some "b5"
    available_moves := [tackle]
    available_switches := []
    active_pokemon := some abra
    opponent_active_pokemon := some gengar
    opponent_team := [gengar, filler "c1", filler "c2"] }

/-- `battle5` with one safe switch available. -/
def battle5w : Battle :=
  { battle5 with battle_tag := some "b5w", available_switches := [umbreon] }

/-- `battle5` with no usable moves and one switch. -/
def battle3 : Battle :=
  { battle5 with
    battle_tag := some "b3"
    available_moves := []
    available_switches := [umbreon] }

/-- `battle4` with an exception raised in the evaluation region. -/
def battleRaise : Battle :=
  { battle4 with battle_tag := some "braise", raiseInBody := true }

theorem maxScore_cons {α : Type} (score : α → ℚ) (a : α) {l : List α} (h : l ≠ []) :
    maxScore score (a :: l) = max (score a) (maxScore score l) := by
  cases l with
  | nil => exact absurd rfl h
  | cons b t => rfl

theorem head_le_maxScore {α : Type} (score : α → ℚ) (a : α) (l : List α) :
    score a ≤ maxScore score (a :: l) := by
  cases l with
  | nil => simp [maxScore]
  | cons b t => exact le_max_left _ _

theorem le_maxScore_of_mem {α : Type} (score : α → ℚ) {a : α} {l : List α}
    (h : a ∈ l) : score a ≤ maxScore score l := by
  induction l with
  | nil => cases h
  | cons x xs ih =>
    rcases List.mem_cons.mp h with rfl | hm
    · exact head_le_maxScore score a xs
    · have hxs : xs ≠ [] := by rintro rfl; cases hm
      rw [maxScore_cons score x hxs]
      exact le_trans (ih hm) (le_max_right _ _)

theorem loopBest_from {α : Type} (score : α → ℚ) :
    ∀ (xs : List α) (b : α),
      ∃ a, List.foldl (loopStep score) (some (b, score b)) xs = some (a, score a) ∧
        (b :: xs).find? (fun y => score y = maxScore score (b :: xs)) = some a := by
  intro xs
  induction xs with
  | nil =>
    intro b
    refine ⟨b, rfl, ?_⟩
    simp [maxScore, List.find?]
  | cons x xs ih =>
    intro b
    by_cases h : score b < score x
    · obtain ⟨a, hfold, hfind⟩ := ih x
      have hstep : loopStep score (some (b, score b)) x = some (x, score x) := by
        simp [loopStep, if_pos h]
      refine ⟨a, ?_, ?_⟩
      · rw [List.foldl_cons, hstep]; exact hfold
      · have hx : score x ≤ maxScore score (x :: xs) := head_le_maxScore score x xs
        have hM : maxScore score (b :: x :: xs) = maxScore score (x :: xs) := by
          rw [maxScore_cons score b (by simp)]
          exact max_eq_right (le_trans (le_of_lt h) hx)
        have hbM : ¬ (score b = maxScore score (b :: x :: xs)) := by
          rw [hM]; exact ne_of_lt (lt_of_lt_of_le h hx)
        rw [List.find?_cons_of_neg _ (by simpa using hbM), hM]
        exact hfind
    · obtain ⟨a, hfold, hfind⟩ := ih b
      have hxb : score x ≤ score b := le_of_not_lt h
      have hstep : loopStep score (some (b, score b)) x = some (b, score b) := by
        simp [loopStep, if_neg h]
      refine ⟨a, ?_, ?_⟩
      · rw [List.foldl_cons, hstep]; exact hfold
      · cases xs with
        | nil =>
          have hM : maxScore score [b, x] = score b := max_eq_left hxb
          have hab : a = b := by
            have hfb : ([b].find? (fun y => score y = maxScore score [b])) = some b := by
              simp [maxScore, List.find?]
            rw [hfb] at hfind
            exact (Option.some_inj.mp hfind).symm
          rw [List.find?_cons_of_pos _ (by simp [hM]), hab]
        | cons y ys =>
          have hM : maxScore score (b :: x :: y :: ys) = maxScore score (b :: y :: ys) := by
            rw [maxScore_cons score b (l := x :: y :: ys) (by simp),
              maxScore_cons score x (l := y :: ys) (by simp),
              maxScore_cons score b (l := y :: ys) (by simp),
              ← max_assoc, max_eq_left hxb]
          by_cases hbM : score b = maxScore score (b :: y :: ys)
          · have hab : a = b := by
              rw [List.find?_cons_of_pos _ (by simpa using hbM)] at hfind
              exact (Option.some_inj.mp hfind).symm
            subst hab
            rw [List.find?_cons_of_pos _ (by rw [hM]; simpa using hbM)]
          · have hxM : ¬ (score x = maxScore score (b :: y :: ys)) := by
              intro hx
              exact hbM (le_antisymm (head_le_maxScore score b (y :: ys))
                (hx ▸ hxb))
            rw [List.find?_cons_of_neg _ (by rw [hM]; simpa using hbM), hM,
              List.find?_cons_of_neg _ (by simpa using hxM)]
            rw [List.find?_cons_of_neg _ (by simpa using hbM)] at hfind
            exact hfind

theorem loopBest_spec {α : Type} (score : α → ℚ) {l : List α} (h : l ≠ []) :
    ∃ a, loopBest score l = some (a, score a) ∧ firstArgmax score l = some a := by
  cases l with
  | nil => exact absurd rfl h
  | cons b xs =>
    obtain ⟨a, hfold, hfind⟩ := loopBest_from score xs b
    refine ⟨a, ?_, hfind⟩
    rw [loopBest, List.foldl_cons]
    exact hfold

theorem firstArgmax_mem_max {α : Type} (score : α → ℚ) {l : List α} {a : α}
    (h : firstArgmax score l = some a) :
    a ∈ l ∧ score a = maxScore score l := by
  constructor
  · exact List.mem_of_find?_eq_some h
  · have := List.find?_some h
    simpa using this

theorem lookup_setScratch (s : AgentState) (k k' : String) (v : Scratch) :
    (setScratch s k v).lookup k' = if k' = k then some v else s.lookup k' := by
  induction s with
  | nil =>
    by_cases hk : k' = k
    · subst hk; simp [setScratch, List.lookup]
    · simp [setScratch, List.lookup, beq_eq_false_iff_ne.mpr hk, hk]
  | cons e rest ih =>
    obtain ⟨ek, ev⟩ := e
    by_cases hek : ek = k
    · subst hek
      by_cases hk : k' = ek
      · subst hk; simp [setScratch, List.lookup]
      · simp [setScratch, List.lookup, beq_eq_false_iff_ne.mpr hk, hk]
    · by_cases hk : k' = ek
      · subst hk
        have hk2 : ¬ (k' = k) := hek
        simp [setScratch, List.lookup, if_neg hek, hk2]
      · simp [setScratch, List.lookup, if_neg hek, beq_eq_false_iff_ne.mpr hk, ih]

theorem choose_move_state_shape (chart : PType → PType → ℚ) (s : AgentState)
    (b : Battle) :
    ∃ st', (choose_move chart s b).1 = setScratch s (battleKey b) st' := by
  simp only [choose_move, choose_move_rest]
  repeat' split
  all_goals exact ⟨_, rfl⟩

theorem choose_move_eq_rest (chart : PType → PType → ℚ) (s : AgentState) (b : Battle)
    (hmoves : b.available_moves ≠ [])
    (hintent : intent_honored chart b (scratch_after_tracker s b) = false) :
    choose_move chart s b =
      choose_move_rest chart s (battleKey b) b (scratch_after_tracker s b) := by
  simp only [choose_move]
  rw [if_neg hmoves]
  by_cases hc :
      (has_commit_intent (scratch_after_tracker s b)
        && intent_still_safe chart b.exc b) = true
  · rw [if_pos hc]
    cases hmv : move_for_intent b (scratch_after_tracker s b) with
    | none => rfl
    | some m =>
      exfalso
      rw [intent_honored, hc, hmv] at hintent
      simp at hintent
  · rw [if_neg hc]

theorem enumerate_actions_ne_nil (chart : PType → PType → ℚ) (exc : Bool)
    (b : Battle) (st : Scratch) (hmoves : b.available_moves ≠ []) :
    enumerate_actions chart exc b st ≠ [] := by
  simp only [enumerate_actions]
  intro hcontra
  rcases List.append_eq_nil.mp hcontra with ⟨h1, _⟩
  rcases List.append_eq_nil.mp h1 with ⟨h2, _⟩
  exact hmoves (List.map_eq_nil_iff.mp h2)

theorem choose_move_selects_first_argmax (chart : PType → PType → ℚ)
    (s : AgentState) (b : Battle)
    (hmoves : b.available_moves ≠ [])
    (hraise : b.raiseInBody = false)
    (hintent : intent_honored chart b (scratch_after_tracker s b) = false) :
    ∃ a, firstArgmax (evaluate_action chart b.exc b)
        (enumerate_actions chart b.exc b (scratch_after_tracker s b)) = some a ∧
      (choose_move chart s b).2 = orderOfAction a := by
  rw [choose_move_eq_rest chart s b hmoves hintent]
  obtain ⟨a, hloop, hfind⟩ :=
    loopBest_spec (evaluate_action chart b.exc b)
      (enumerate_actions_ne_nil chart b.exc b (scratch_after_tracker s b) hmoves)
  refine ⟨a, hfind, ?_⟩
  simp only [choose_move_rest]
  rw [if_neg (by simp [hraise]), hloop]
  cases a with
  | move m tera => cases tera <;> simp [orderOfAction]
  | switch t => simp [orderOfAction]

theorem loopBest_mem_aux {α : Type} (score : α → ℚ) {p : α × ℚ} :
    ∀ (l : List α) (acc : Option (α × ℚ)),
      List.foldl (loopStep score) acc l = some p → acc = some p ∨ p.1 ∈ l := by
  intro l
  induction l with
  | nil => intro acc h; exact Or.inl h
  | cons x xs ih =>
    intro acc h
    rw [List.foldl_cons] at h
    rcases ih (loopStep score acc x) h with hacc | hmem
    · cases acc with
      | none =>
        simp only [loopStep] at hacc
        right
        obtain rfl : p = (x, score x) := (Option.some_inj.mp hacc).symm
        exact List.mem_cons_self x xs
      | some q =>
        obtain ⟨bb, bs⟩ := q
        simp only [loopStep] at hacc
        split at hacc
        · right
          obtain rfl : p = (x, score x) := (Option.some_inj.mp hacc).symm
          exact List.mem_cons_self x xs
        · left
          exact hacc
    · exact Or.inr (List.mem_cons_of_mem x hmem)

theorem loopBest_mem {α : Type} (score : α → ℚ) {l : List α} {p : α × ℚ}
    (h : loopBest score l = some p) : p.1 ∈ l := by
  rcases loopBest_mem_aux score l none h with hacc | hmem
  · cases hacc
  · exact hmem

theorem tera_used_update_tracker (b : Battle) (st : Scratch) :
    (update_opponent_repeat_tracker b st).tera_used = st.tera_used := by
  unfold update_opponent_repeat_tracker
  repeat' split
  all_goals rfl

theorem tera_used_maybe_set (m : Move) (st : Scratch) :
    (maybe_set_intent_from_move m st).tera_used = st.tera_used := by
  simp only [maybe_set_intent_from_move]
  repeat' split
  all_goals rfl

theorem no_tera_action_of_used (chart : PType → PType → ℚ) (exc : Bool) (b : Battle)
    {st : Scratch} (h : st.tera_used = true) (m : Move) :
    Action.move m true ∉ enumerate_actions chart exc b st := by
  intro hmem
  simp only [enumerate_actions, h, Bool.not_true, Bool.and_false] at hmem
  rcases List.mem_append.mp hmem with h12 | h3
  · rcases List.mem_append.mp h12 with h1 | h2
    · obtain ⟨m', _, heq⟩ := List.mem_map.mp h1
      simp at heq
    · rw [if_neg (by simp)] at h2
      cases h2
  · obtain ⟨p, _, heq⟩ := List.mem_map.mp h3
    simp at heq

theorem choose_move_rest_tera_step (chart : PType → PType → ℚ) (s : AgentState)
    (key : String) (b : Battle) {st1 : Scratch} (h1 : st1.tera_used = true) :
    (∀ m, (choose_move_rest chart s key b st1).2 ≠ Order.move m true) ∧
      teraUsedAt (choose_move_rest chart s key b st1).1 key = true := by
  simp only [choose_move_rest]
  by_cases hr : b.raiseInBody = true
  · rw [if_pos hr]
    constructor
    · intro m; split <;> simp
    · simp [teraUsedAt, lookup_setScratch, h1]
  · rw [if_neg hr]
    cases hloop : loopBest (evaluate_action chart b.exc b)
        (enumerate_actions chart b.exc b st1) with
    | none =>
      cases hm : b.available_moves with
      | nil =>
        constructor
        · intro m; simp
        · simp [teraUsedAt, lookup_setScratch, h1]
      | cons m0 rest =>
        constructor
        · intro m; simp
        · simp [teraUsedAt, lookup_setScratch, h1]
    | some p =>
      obtain ⟨best, sc⟩ := p
      cases best with
      | move mv tera =>
        cases tera with
        | true =>
          exfalso
          have hmem := loopBest_mem _ hloop
          exact no_tera_action_of_used chart b.exc b h1 mv hmem
        | false =>
          constructor
          · intro m; simp
          · simp [teraUsedAt, lookup_setScratch, tera_used_maybe_set, h1]
      | switch t =>
        constructor
        · intro m; simp
        · simp [teraUsedAt, lookup_setScratch, h1]

theorem choose_move_tera_step (chart : PType → PType → ℚ) (s : AgentState)
    (b : Battle) (h : teraUsedAt s (battleKey b) = true) :
    (∀ m, (choose_move chart s b).2 ≠ Order.move m true) ∧
      teraUsedAt (choose_move chart s b).1 (battleKey b) = true := by
  have hst0 : ((s.lookup (battleKey b)).getD defaultScratch).tera_used = true := h
  have hst1 : (scratch_after_tracker s b).tera_used = true := by
    rw [scratch_after_tracker, tera_used_update_tracker]; exact hst0
  simp only [choose_move]
  by_cases hmoves : b.available_moves = []
  · rw [if_pos hmoves]
    cases hpk : pick_best_switch chart b.exc b with
    | some sw =>
      constructor
      · intro m; simp
      · simp [teraUsedAt, lookup_setScratch, hst0]
    | none =>
      constructor
      · intro m; simp
      · simp [teraUsedAt, lookup_setScratch, hst0]
  · rw [if_neg hmoves]
    by_cases hc :
        (has_commit_intent (scratch_after_tracker s b)
          && intent_still_safe chart b.exc b) = true
    · rw [if_pos hc]
      cases hmv : move_for_intent b (scratch_after_tracker s b) with
      | some m0 =>
        constructor
        · intro m; simp
        · simp [teraUsedAt, lookup_setScratch, hst1]
      | none => exact choose_move_rest_tera_step chart s (battleKey b) b hst1
    · rw [if_neg hc]
      exact choose_move_rest_tera_step chart s (battleKey b) b hst1

theorem choose_move_rest_tera_set (chart : PType → PType → ℚ) (s : AgentState)
    (key : String) (b : Battle) {st1 : Scratch} (m : Move)
    (h : (choose_move_rest chart s key b st1).2 = Order.move m true) :
    teraUsedAt (choose_move_rest chart s key b st1).1 key = true := by
  simp only [choose_move_rest] at h ⊢
  by_cases hr : b.raiseInBody = true
  · rw [if_pos hr] at h
    exfalso
    revert h
    split <;> simp
  · rw [if_neg hr] at h ⊢
    cases hloop : loopBest (evaluate_action chart b.exc b)
        (enumerate_actions chart b.exc b st1) with
    | none =>
      rw [hloop] at h
      exfalso
      revert h
      cases b.available_moves <;> simp
    | some p =>
      rw [hloop] at h
      obtain ⟨best, sc⟩ := p
      cases best with
      | move mv tera =>
        cases tera with
        | true => simp [teraUsedAt, lookup_setScratch]
        | false => simp at h
      | switch t => simp at h

theorem choose_move_tera_set (chart : PType → PType → ℚ) (s : AgentState)
    (b : Battle) (m : Move)
    (h : (choose_move chart s b).2 = Order.move m true) :
    teraUsedAt (choose_move chart s b).1 (battleKey b) = true := by
  simp only [choose_move] at h ⊢
  by_cases hmoves : b.available_moves = []
  · rw [if_pos hmoves] at h
    exfalso
    revert h
    cases pick_best_switch chart b.exc b <;> simp
  · rw [if_neg hmoves] at h ⊢
    by_cases hc :
        (has_commit_intent (scratch_after_tracker s b)
          && intent_still_safe chart b.exc b) = true
    · rw [if_pos hc] at h ⊢
      cases hmv : move_for_intent b (scratch_after_tracker s b) with
      | some m0 =>
        rw [hmv] at h
        simp at h
      | none =>
        rw [hmv] at h
        exact choose_move_rest_tera_set chart s (battleKey b) b m h
    · rw [if_neg hc] at h ⊢
      exact choose_move_rest_tera_set chart s (battleKey b) b m h

theorem teraCount_cons (o : Order) (os : List Order) :
    teraCount (o :: os) = (if isTeraOrder o then 1 else 0) + teraCount os := by
  simp only [teraCount, List.filter_cons]
  cases h : isTeraOrder o <;> simp [Nat.add_comm]

theorem isTeraOrder_true {o : Order} (h : isTeraOrder o = true) :
    ∃ m, o = Order.move m true := by
  cases o with
  | move m t =>
    cases t with
    | true => exact ⟨m, rfl⟩
    | false => simp [isTeraOrder] at h
  | switch t => simp [isTeraOrder] at h
  | randomMove => simp [isTeraOrder] at h
  | randomSwitch => simp [isTeraOrder] at h

theorem run_battles_tera_bound (chart : PType → PType → ℚ) :
    ∀ (bs : List Battle) (s : AgentState) (k : String),
      (∀ b ∈ bs, battleKey b = k) →
      teraCount (run_battles chart s bs).2 ≤ (if teraUsedAt s k then 0 else 1) := by
  intro bs
  induction bs with
  | nil =>
    intro s k _
    simp [run_battles, teraCount]
  | cons b rest ih =>
    intro s k hk
    have hbk : battleKey b = k := hk b (List.mem_cons_self b rest)
    have hrest : ∀ b' ∈ rest, battleKey b' = k :=
      fun b' hb' => hk b' (List.mem_cons_of_mem b hb')
    simp only [run_battles]
    rw [teraCount_cons]
    have hihs := ih (choose_move chart s b).1 k hrest
    by_cases hsk : teraUsedAt s k = true
    · have hstep := choose_move_tera_step chart s b (by rw [hbk]; exact hsk)
      have hto : isTeraOrder (choose_move chart s b).2 = false := by
        cases ho : (choose_move chart s b).2 with
        | move mm tt =>
          cases tt with
          | true => exact absurd ho (hstep.1 mm)
          | false => rfl
        | switch t => rfl
        | randomMove => rfl
        | randomSwitch => rfl
      have hpres : teraUsedAt (choose_move chart s b).1 k = true := by
        rw [← hbk]
        exact hstep.2
      have h0 : teraCount (run_battles chart (choose_move chart s b).1 rest).2 = 0 := by
        rw [hpres] at hihs
        simpa using hihs
      simp [hto, hsk, h0]
    · have hskf : teraUsedAt s k = false := Bool.eq_false_iff.mpr hsk
      by_cases hto : isTeraOrder (choose_move chart s b).2 = true
      · obtain ⟨m, hm⟩ := isTeraOrder_true hto
        have hset : teraUsedAt (choose_move chart s b).1 k = true := by
          rw [← hbk]
          exact choose_move_tera_set chart s b m hm
        have h0 : teraCount (run_battles chart (choose_move chart s b).1 rest).2 = 0 := by
          rw [hset] at hihs
          simpa using hihs
        simp [hto, hskf, h0]
      · have htof : isTeraOrder (choose_move chart s b).2 = false :=
          Bool.eq_false_iff.mpr hto
        have hle : teraCount (run_battles chart (choose_move chart s b).1 rest).2 ≤ 1 := by
          refine le_trans hihs ?_
          split <;> norm_num
        simp only [htof, hskf]
        simpa using hle

theorem foldl_ifmax_eq_max (f : PType → ℚ) (l : List PType) :
    ∀ w : ℚ,
      l.foldl (fun worst t => if worst < f t then f t else worst) w =
        l.foldl (fun worst t => max worst (f t)) w := by
  induction l with
  | nil => intro w; rfl
  | cons x xs ih =>
    intro w
    rw [List.foldl_cons, List.foldl_cons, ih]
    congr 1
    rcases lt_or_le w (f x) with h | h
    · rw [if_pos h, max_eq_right (le_of_lt h)]
    · rw [if_neg (not_lt.mpr h), max_eq_left h]

theorem le_foldl_max (f : PType → ℚ) (l : List PType) :
    ∀ w : ℚ, w ≤ l.foldl (fun worst t => max worst (f t)) w := by
  induction l with
  | nil => intro w; exact le_refl w
  | cons x xs ih =>
    intro w
    rw [List.foldl_cons]
    exact le_trans (le_max_left _ _) (ih _)


theorem choose_move_rest_read_frame (chart : PType → PType → ℚ)
    (s1 s2 : AgentState) (key : String) (b : Battle) (st1 : Scratch) :
    (choose_move_rest chart s1 key b st1).2 = (choose_move_rest chart s2 key b st1).2 ∧
      ((choose_move_rest chart s1 key b st1).1).lookup key =
        ((choose_move_rest chart s2 key b st1).1).lookup key := by
  constructor
  · simp only [choose_move_rest]
    repeat' split
    all_goals rfl
  · simp only [choose_move_rest]
    repeat' split
    all_goals simp [lookup_setScratch]

theorem choose_move_read_frame (chart : PType → PType → ℚ) (s1 s2 : AgentState)
    (b : Battle) (h : s1.lookup (battleKey b) = s2.lookup (battleKey b)) :
    (choose_move chart s1 b).2 = (choose_move chart s2 b).2 ∧
      ((choose_move chart s1 b).1).lookup (battleKey b) =
        ((choose_move chart s2 b).1).lookup (battleKey b) := by
  have hst : scratch_after_tracker s1 b = scratch_after_tracker s2 b := by
    unfold scratch_after_tracker
    rw [h]
  simp only [choose_move]
  rw [h, hst]
  by_cases hmoves : b.available_moves = []
  · rw [if_pos hmoves, if_pos hmoves]
    cases pick_best_switch chart b.exc b with
    | some sw => exact ⟨rfl, by simp [lookup_setScratch]⟩
    | none => exact ⟨rfl, by simp [lookup_setScratch]⟩
  · rw [if_neg hmoves, if_neg hmoves]
    by_cases hc :
        (has_commit_intent (scratch_after_tracker s2 b)
          && intent_still_safe chart b.exc b) = true
    · rw [if_pos hc, if_pos hc]
      cases move_for_intent b (scratch_after_tracker s2 b) with
      | some m => exact ⟨rfl, by simp [lookup_setScratch]⟩
      | none => exact choose_move_rest_read_frame chart s1 s2 (battleKey b) b _
    · rw [if_neg hc, if_neg hc]
      exact choose_move_rest_read_frame chart s1 s2 (battleKey b) b _

/-- C6: the agent's only mutable state is the per-battle scratch dict keyed
by the battle's key: a `choose_move` call writes only that key's entry
(every other key's entry is unchanged) and reads only that key's entry (the
returned order and the updated entry at that key depend only on the scratch
entry stored at that key, not on any other battle's entry). -/
theorem c6_state_frame (chart : PType → PType → ℚ) (s : AgentState) (b : Battle) :
    (∀ k, k ≠ battleKey b → ((choose_move chart s b).1).lookup k = s.lookup k)
    ∧ (∀ s2, s.lookup (battleKey b) = s2.lookup (battleKey b) →
        (choose_move chart s b).2 = (choose_move chart s2 b).2 ∧
        ((choose_move chart s b).1).lookup (battleKey b) =
          ((choose_move chart s2 b).1).lookup (battleKey b)) := by
  constructor
  · intro k hk
    obtain ⟨st', hshape⟩ := choose_move_state_shape chart s b
    rw [hshape, lookup_setScratch, if_neg hk]
  · intro s2 h
    exact choose_move_read_frame chart s s2 b h

/-- Witness for C6 at a concrete battle, a distinct key, and a second state
that differs from the first away from the battle's key. -/
theorem c6_state_frame_witness :
    ("otherBattle" ≠ battleKey battle4 ∧
      ((choose_move chartNeutral [] battle4).1).lookup "otherBattle" =
        ([] : AgentState).lookup "otherBattle")
    ∧ (([] : AgentState).lookup (battleKey battle4) =
        ([("unrelated", defaultScratch)] : AgentState).lookup (battleKey battle4)
      ∧ ((choose_move chartNeutral [] battle4).2 =
          (choose_move chartNeutral [("unrelated", defaultScratch)] battle4).2
        ∧ ((choose_move chartNeutral [] battle4).1).lookup (battleKey battle4) =
            ((choose_move chartNeutral [("unrelated", defaultScratch)] battle4).1).lookup
              (battleKey battle4))) :=
  ⟨⟨by decide, (c6_state_frame chartNeutral [] battle4).1 "otherBattle" (by decide)⟩,
    ⟨by decide,
      (c6_state_frame chartNeutral [] battle4).2 [("unrelated", defaultScratch)]
        (by decide)⟩⟩

/-- C7: holding the agent's own damage, utility and progress components
fixed, the net score of a move action is monotonically nonincreasing in the
opponent-reply damage score, and the normalized reply is weighted 0.7 when
the agent is likely faster and 0.85 otherwise. -/
theorem c7_reply_monotone :
    (∀ (d u p : ℚ) (faster td : Bool) (r1 r2 : ℚ), r1 ≤ r2 →
      moveNetFromComponents d u p faster td r2 ≤ moveNetFromComponents d u p faster td r1)
    ∧ (∀ (d u p : ℚ) (td : Bool) (r : ℚ),
        moveNetFromComponents d u p true td r =
          (if td then ((d + u + p) - 0.7 * normalize_damage_score r) * 0.9
           else (d + u + p) - 0.7 * normalize_damage_score r))
    ∧ (∀ (d u p : ℚ) (td : Bool) (r : ℚ),
        moveNetFromComponents d u p false td r =
          (if td then ((d + u + p) - 0.85 * normalize_damage_score r) * 0.9
           else (d + u + p) - 0.85 * normalize_damage_score r)) := by
  refine ⟨?_, fun d u p td r => rfl, fun d u p td r => rfl⟩
  intro d u p faster td r1 r2 h
  have hn : normalize_damage_score r1 ≤ normalize_damage_score r2 := by
    apply min_le_min _ le_rfl
    linarith
  have hw : (0:ℚ) ≤ (if faster then (0.7:ℚ) else 0.85) := by
    cases faster <;> norm_num
  have key : (if faster then (0.7:ℚ) else 0.85) * normalize_damage_score r1
      ≤ (if faster then (0.7:ℚ) else 0.85) * normalize_damage_score r2 :=
    mul_le_mul_of_nonneg_left hn hw
  simp only [moveNetFromComponents]
  cases td with
  | false =>
    rw [if_neg Bool.false_ne_true, if_neg Bool.false_ne_true]
    linarith
  | true =>
    rw [if_pos rfl, if_pos rfl]
    have hnet : ((d + u + p) - (if faster then (0.7:ℚ) else 0.85) * normalize_damage_score r2)
        ≤ ((d + u + p) - (if faster then (0.7:ℚ) else 0.85) * normalize_damage_score r1) := by
      linarith
    have := mul_le_mul_of_nonneg_right hnet (by norm_num : (0:ℚ) ≤ 0.9)
    linarith

/-- Witness for C7 at concrete components and reply scores. -/
theorem c7_reply_monotone_witness :
    (100 : ℚ) ≤ 200 ∧
      moveNetFromComponents 0.5 0.2 0.1 true false 200 ≤
        moveNetFromComponents 0.5 0.2 0.1 true false 100 :=
  ⟨by norm_num, c7_reply_monotone.1 0.5 0.2 0.1 true false 100 200 (by norm_num)⟩

/-- C9: `_stage_multiplier` is strictly positive, equals 1 at stage 0, is
strictly increasing in the stage, and is computed as `(2 + stage)/2` for
`stage ≥ 0` and `2/(2 - stage)` for `stage < 0`. -/
theorem c9_stage_multiplier :
    (∀ s : Int, 0 < stage_multiplier s)
    ∧ stage_multiplier 0 = 1
    ∧ (∀ s t : Int, s < t → stage_multiplier s < stage_multiplier t)
    ∧ (∀ s : Int, 0 ≤ s → stage_multiplier s = (2 + (s : ℚ)) / 2)
    ∧ (∀ s : Int, s < 0 → stage_multiplier s = 2 / (2 - (s : ℚ))) := by
  refine ⟨?_, by norm_num [stage_multiplier], ?_, ?_, ?_⟩
  · intro s
    unfold stage_multiplier
    split
    · rename_i hs
      have h0 : (0:ℚ) ≤ (s:ℚ) := by exact_mod_cast hs
      apply div_pos (by linarith) (by norm_num)
    · rename_i hs
      have h0 : (s:ℚ) < 0 := by exact_mod_cast not_le.mp hs
      exact div_pos (by norm_num) (by linarith)
  · intro s t hst
    unfold stage_multiplier
    by_cases hs : (0:Int) ≤ s
    · have ht : (0:Int) ≤ t := le_of_lt (lt_of_le_of_lt hs hst)
      rw [if_pos hs, if_pos ht]
      have h1 : (s:ℚ) < (t:ℚ) := by exact_mod_cast hst
      rw [div_lt_div_iff (by norm_num : (0:ℚ) < 2) (by norm_num : (0:ℚ) < 2)]
      linarith
    · have hs1 : (s:ℚ) ≤ -1 := by
        have : s ≤ -1 := by omega
        exact_mod_cast this
      rw [if_neg hs]
      by_cases ht : (0:Int) ≤ t
      · rw [if_pos ht]
        have ht0 : (0:ℚ) ≤ (t:ℚ) := by exact_mod_cast ht
        rw [div_lt_div_iff (by linarith : (0:ℚ) < 2 - (s:ℚ)) (by norm_num : (0:ℚ) < 2)]
        have h2t : (2:ℚ) ≤ 2 + (t:ℚ) := by linarith
        have h3s : (3:ℚ) ≤ 2 - (s:ℚ) := by linarith
        have hmul : (2:ℚ) * 3 ≤ (2 + (t:ℚ)) * (2 - (s:ℚ)) :=
          mul_le_mul h2t h3s (by norm_num) (by linarith)
        linarith
      · rw [if_neg ht]
        have hst2 : (s:ℚ) < (t:ℚ) := by exact_mod_cast hst
        have ht1 : (t:ℚ) ≤ -1 := by
          have : t ≤ -1 := by omega
          exact_mod_cast this
        rw [div_lt_div_iff (by linarith : (0:ℚ) < 2 - (s:ℚ))
          (by linarith : (0:ℚ) < 2 - (t:ℚ))]
        linarith
  · intro s hs
    unfold stage_multiplier
    rw [if_pos hs]
  · intro s hs
    unfold stage_multiplier
    rw [if_neg (not_le.mpr hs)]

/-- Witness for C9 at stages 0 and 1. -/
theorem c9_stage_multiplier_witness :
    (0 : Int) < 1 ∧ stage_multiplier 0 < stage_multiplier 1 :=
  ⟨by decide, c9_stage_multiplier.2.2.1 0 1 (by decide)⟩

/-- C10: `_switch_safety_score` is always at least 1, is exactly 1 when
either argument is `None` or the guarded library calls raise, and is
otherwise the maximum of 1 and the opponent's per-type STAB damage
multipliers against the candidate. -/
theorem c10_switch_safety (chart : PType → PType → ℚ) (exc : Bool)
    (mon opponent : Option Pokemon) :
    1 ≤ switch_safety_score chart exc mon opponent
    ∧ (mon = none ∨ opponent = none ∨ exc = true →
        switch_safety_score chart exc mon opponent = 1)
    ∧ (∀ m o, mon = some m → opponent = some o → exc = false →
        switch_safety_score chart exc mon opponent =
          (o.types.filterMap id).foldl
            (fun worst t => max worst (damage_multiplier chart t (m.types.filterMap id)))
            1) := by
  refine ⟨?_, ?_, ?_⟩
  · cases mon with
    | none => cases opponent <;> simp [switch_safety_score]
    | some m =>
      cases opponent with
      | none => simp [switch_safety_score]
      | some o =>
        by_cases hexc : exc = true
        · simp [switch_safety_score, hexc]
        · have hexc2 : exc = false := Bool.eq_false_iff.mpr hexc
          subst hexc2
          simp only [switch_safety_score]
          rw [if_neg Bool.false_ne_true,
            foldl_ifmax_eq_max (fun t => damage_multiplier chart t (m.types.filterMap id))]
          exact le_foldl_max _ _ 1
  · intro h
    rcases h with h | h | h
    · subst h; cases opponent <;> simp [switch_safety_score]
    · subst h; cases mon <;> simp [switch_safety_score]
    · subst h
      cases mon with
      | none => cases opponent <;> simp [switch_safety_score]
      | some m => cases opponent <;> simp [switch_safety_score]
  · intro m o hm ho hexc
    subst hm; subst ho; subst hexc
    simp only [switch_safety_score]
    rw [if_neg Bool.false_ne_true]
    exact foldl_ifmax_eq_max _ _ 1

/-- Witness for C10 at a concrete candidate and opponent. -/
theorem c10_switch_safety_witness :
    1 ≤ switch_safety_score chartCex false (some umbreon) (some gengar)
    ∧ switch_safety_score chartCex false (some umbreon) (some gengar) =
        (gengar.types.filterMap id).foldl
          (fun worst t => max worst (damage_multiplier chartCex t (umbreon.types.filterMap id)))
          1 :=
  ⟨(c10_switch_safety chartCex false (some umbreon) (some gengar)).1,
    (c10_switch_safety chartCex false (some umbreon) (some gengar)).2.2 umbreon gengar
      rfl rfl rfl⟩

/-- C1: `choose_move` always returns exactly one action object (a move
order, optionally terastallize-flagged, a switch order, or one of the two
library random fallbacks); when an exception is raised inside the decision
logic, the broad handler returns the library random-move fallback when
`available_moves` is non-empty and the random-switch fallback otherwise, so
no call propagates an exception. -/
theorem c1_total_and_exception_fallback (chart : PType → PType → ℚ) :
    (∀ (s : AgentState) (b : Battle),
      (∃ m t, (choose_move chart s b).2 = Order.move m t) ∨
      (∃ p, (choose_move chart s b).2 = Order.switch p) ∨
      (choose_move chart s b).2 = Order.randomMove ∨
      (choose_move chart s b).2 = Order.randomSwitch)
    ∧ (∀ (s : AgentState) (key : String) (b : Battle) (st1 : Scratch),
        b.raiseInBody = true →
        (choose_move_rest chart s key b st1).2 =
          (if b.available_moves = [] then Order.randomSwitch else Order.randomMove))
    ∧ (∀ (s : AgentState) (b : Battle),
        b.raiseInBody = true → b.available_moves ≠ [] →
        intent_honored chart b (scratch_after_tracker s b) = false →
        (choose_move chart s b).2 = Order.randomMove) := by
  refine ⟨?_, ?_, ?_⟩
  · intro s b
    cases h : (choose_move chart s b).2 with
    | move m t => exact Or.inl ⟨m, t, rfl⟩
    | switch p => exact Or.inr (Or.inl ⟨p, rfl⟩)
    | randomMove => exact Or.inr (Or.inr (Or.inl rfl))
    | randomSwitch => exact Or.inr (Or.inr (Or.inr rfl))
  · intro s key b st1 hr
    simp only [choose_move_rest]
    rw [if_pos hr]
  · intro s b hr hmoves hintent
    rw [choose_move_eq_rest chart s b hmoves hintent]
    simp only [choose_move_rest]
    rw [if_pos hr, if_neg hmoves]

/-- Witness for C1: a concrete raising battle falls back to the library
random move. -/
theorem c1_total_and_exception_fallback_witness :
    battleRaise.raiseInBody = true ∧ battleRaise.available_moves ≠ [] ∧
      intent_honored chartNeutral battleRaise (scratch_after_tracker [] battleRaise)
        = false ∧
      (choose_move chartNeutral [] battleRaise).2 = Order.randomMove :=
  ⟨rfl, by decide, by decide,
    (c1_total_and_exception_fallback chartNeutral).2.2 [] battleRaise rfl (by decide)
      (by decide)⟩

/-- C2: with moves available, no commit intent honored and no exception,
`choose_move` returns the first candidate, in enumeration order, whose
`_evaluate_action` score equals the maximum score over all candidates
produced by `_enumerate_actions`. -/
theorem c2_first_argmax (chart : PType → PType → ℚ) (s : AgentState) (b : Battle)
    (hmoves : b.available_moves ≠ [])
    (hraise : b.raiseInBody = false)
    (hintent : intent_honored chart b (scratch_after_tracker s b) = false) :
    ∃ a, firstArgmax (evaluate_action chart b.exc b)
        (enumerate_actions chart b.exc b (scratch_after_tracker s b)) = some a ∧
      (choose_move chart s b).2 = orderOfAction a :=
  choose_move_selects_first_argmax chart s b hmoves hraise hintent

/-- Witness for C2 at a concrete two-move battle. -/
theorem c2_first_argmax_witness :
    battle4.available_moves ≠ [] ∧ battle4.raiseInBody = false ∧
      intent_honored chartNeutral battle4 (scratch_after_tracker [] battle4) = false ∧
      ∃ a, firstArgmax (evaluate_action chartNeutral battle4.exc battle4)
          (enumerate_actions chartNeutral battle4.exc battle4
            (scratch_after_tracker [] battle4)) = some a ∧
        (choose_move chartNeutral [] battle4).2 = orderOfAction a :=
  ⟨by decide, rfl, by decide,
    c2_first_argmax chartNeutral [] battle4 (by decide) rfl (by decide)⟩

/-- C3: with no usable moves, `choose_move` returns a switch: the first
available switch maximizing `(-1.0 * safety) + 0.4 * normalized offense +
utility bonuses` when switches exist, the library random-switch fallback
otherwise, and never a move order. -/
theorem c3_forced_switch_path (chart : PType → PType → ℚ) (s : AgentState)
    (b : Battle) (hmoves : b.available_moves = []) :
    (b.available_switches ≠ [] → ∃ mon,
        firstArgmax (pick_switch_score chart b.exc b) b.available_switches = some mon ∧
        (choose_move chart s b).2 = Order.switch mon)
    ∧ (b.available_switches = [] → (choose_move chart s b).2 = Order.randomSwitch)
    ∧ (∀ m fl, (choose_move chart s b).2 ≠ Order.move m fl)
    ∧ (choose_move chart s b).2 ≠ Order.randomMove := by
  simp only [choose_move]
  rw [if_pos hmoves]
  by_cases hsw : b.available_switches = []
  · have hpk : pick_best_switch chart b.exc b = none := by
      simp [pick_best_switch, hsw]
    rw [hpk]
    exact ⟨fun hne => absurd hsw hne, fun _ => rfl, fun m fl => by simp, by simp⟩
  · obtain ⟨mon, hloop, hfind⟩ := loopBest_spec (pick_switch_score chart b.exc b) hsw
    have hpk : pick_best_switch chart b.exc b = some mon := by
      simp [pick_best_switch, if_neg hsw, hloop]
    rw [hpk]
    exact ⟨fun _ => ⟨mon, hfind, rfl⟩, fun h => absurd h hsw, fun m fl => by simp, by simp⟩

/-- Witness for C3 at a concrete battle with no moves and one switch. -/
theorem c3_forced_switch_path_witness :
    battle3.available_moves = [] ∧
      ((battle3.available_switches ≠ [] → ∃ mon,
          firstArgmax (pick_switch_score chartCex battle3.exc battle3)
            battle3.available_switches = some mon ∧
          (choose_move chartCex [] battle3).2 = Order.switch mon)
      ∧ (battle3.available_switches = [] →
          (choose_move chartCex [] battle3).2 = Order.randomSwitch)
      ∧ (∀ m fl, (choose_move chartCex [] battle3).2 ≠ Order.move m fl)
      ∧ (choose_move chartCex [] battle3).2 ≠ Order.randomMove) :=
  ⟨rfl, c3_forced_switch_path chartCex [] battle3 rfl⟩

/-- C4 counterexample: a battle with HP fraction 0.5 < 0.65, danger 1 < 2
and Recover available, where `_util_and_damage_score` awards Recover no
utility bonus (utility 0, damage 0.5) and the attack is chosen instead of
the healing move. -/
theorem c4_counterexample :
    battle4.active_pokemon = some necrozmaHalf
    ∧ truthyOr necrozmaHalf.current_hp_fraction 1 < 0.65
    ∧ danger_multiplier chartNeutral false battle4.active_pokemon
        battle4.opponent_active_pokemon < 2
    ∧ recoverMove ∈ battle4.available_moves
    ∧ (util_and_damage_score chartNeutral false battle4 recoverMove false).1 = 0
    ∧ (choose_move chartNeutral [] battle4).2 = Order.move sunsteel false := by
  decide

/-- C4 amended: this variant has no healing heuristic at all: for any
battle state and either tera flag, `_util_and_damage_score` gives a
zero-base-power healing move (Morning Sun or Recover) utility 0 and damage
0.5, regardless of HP fraction and danger. -/
theorem c4_no_heal_bonus (chart : PType → PType → ℚ) (exc : Bool) (b : Battle)
    (move : Move) (tera : Bool)
    (hid : strLower move.id = "morningsun" ∨ strLower move.id = "recover")
    (hbp : move.base_power = 0) :
    util_and_damage_score chart exc b move tera = (0, 0.5) := by
  rcases hid with hid | hid <;>
    simp [util_and_damage_score, move_damage_score, move_damage_score_with_tera, hid, hbp]

/-- Witness for the amended C4 at the concrete Recover move. -/
theorem c4_no_heal_bonus_witness :
    (strLower recoverMove.id = "morningsun" ∨ strLower recoverMove.id = "recover")
    ∧ recoverMove.base_power = 0
    ∧ util_and_damage_score chartNeutral false battle4 recoverMove false = (0, 0.5) :=
  ⟨Or.inr (by decide), rfl,
    c4_no_heal_bonus chartNeutral false battle4 recoverMove false (Or.inr (by decide)) rfl⟩

/-- C5 counterexample: a battle where the opponent's worst-case STAB
multiplier is 2 and every available move scores below 130, yet the agent
returns a move order, not a switch (there is no threshold-based switch
rule). -/
theorem c5_counterexample :
    2 ≤ danger_multiplier chartCex false battle5.active_pokemon
        battle5.opponent_active_pokemon
    ∧ (∀ m ∈ battle5.available_moves,
        move_damage_score chartCex false m battle5.active_pokemon
          battle5.opponent_active_pokemon < 130)
    ∧ (∀ a ∈ enumerate_actions chartCex battle5.exc battle5
          (scratch_after_tracker [] battle5),
        evaluate_action chartCex battle5.exc battle5 a < 130)
    ∧ (choose_move chartCex [] battle5).2 = Order.move tackle false := by
  decide

/-- C5 amended: the agent has no "threat ≥ 2 and best move score < 130 →
switch" rule; with moves available, no intent honored and no exception it
returns a switch order only when that switch is an enumerated candidate
whose evaluated score is maximal among all candidates. -/
theorem c5_switch_only_when_argmax (chart : PType → PType → ℚ) (s : AgentState)
    (b : Battle) (t : Pokemon)
    (hmoves : b.available_moves ≠ [])
    (hraise : b.raiseInBody = false)
    (hintent : intent_honored chart b (scratch_after_tracker s b) = false)
    (hsw : (choose_move chart s b).2 = Order.switch t) :
    Action.switch t ∈ enumerate_actions chart b.exc b (scratch_after_tracker s b)
    ∧ ∀ a ∈ enumerate_actions chart b.exc b (scratch_after_tracker s b),
        evaluate_action chart b.exc b a ≤ evaluate_action chart b.exc b (Action.switch t) := by
  obtain ⟨a, hfind, hord⟩ :=
    choose_move_selects_first_argmax chart s b hmoves hraise hintent
  have ha : a = Action.switch t := by
    cases a with
    | move m tera =>
      rw [hord] at hsw
      simp [orderOfAction] at hsw
    | switch t2 =>
      rw [hord] at hsw
      simp only [orderOfAction, Order.switch.injEq] at hsw
      rw [hsw]
  subst ha
  obtain ⟨hmem, hmax⟩ := firstArgmax_mem_max _ hfind
  refine ⟨hmem, fun a2 ha2 => ?_⟩
  calc evaluate_action chart b.exc b a2
      ≤ maxScore (evaluate_action chart b.exc b)
          (enumerate_actions chart b.exc b (scratch_after_tracker s b)) :=
        le_maxScore_of_mem _ ha2
    _ = evaluate_action chart b.exc b (Action.switch t) := hmax.symm

/-- Witness for the amended C5 at a concrete battle the agent answers with
a switch. -/
theorem c5_switch_only_when_argmax_witness :
    (battle5w.available_moves ≠ [] ∧ battle5w.raiseInBody = false ∧
      intent_honored chartCex battle5w (scratch_after_tracker [] battle5w) = false ∧
      (choose_move chartCex [] battle5w).2 = Order.switch umbreon)
    ∧ (Action.switch umbreon ∈ enumerate_actions chartCex battle5w.exc battle5w
          (scratch_after_tracker [] battle5w)
      ∧ ∀ a ∈ enumerate_actions chartCex battle5w.exc battle5w
            (scratch_after_tracker [] battle5w),
          evaluate_action chartCex battle5w.exc battle5w a ≤
            evaluate_action chartCex battle5w.exc battle5w (Action.switch umbreon)) :=
  ⟨⟨by decide, rfl, by decide, by decide⟩,
    c5_switch_only_when_argmax chartCex [] battle5w umbreon (by decide) rfl (by decide)
      (by decide)⟩

/-- C8: the agent's tera bookkeeping allows at most one terastallized
order per battle: once the scratch records `tera_used`, no tera-flagged
action is enumerated and no tera-flagged order is returned, and over any
sequence of decisions for one battle key at most one returned order is
terastallize-flagged. -/
theorem c8_tera_at_most_once (chart : PType → PType → ℚ) :
    (∀ (exc : Bool) (b : Battle) (st : Scratch) (m : Move),
      st.tera_used = true → Action.move m true ∉ enumerate_actions chart exc b st)
    ∧ (∀ (s : AgentState) (b : Battle) (m : Move),
        teraUsedAt s (battleKey b) = true →
        (choose_move chart s b).2 ≠ Order.move m true)
    ∧ (∀ (bs : List Battle) (s : AgentState) (k : String),
        (∀ b ∈ bs, battleKey b = k) →
        teraCount (run_battles chart s bs).2 ≤ (if teraUsedAt s k then 0 else 1)) :=
  ⟨fun exc b st m h => no_tera_action_of_used chart exc b h m,
    fun s b m h => (choose_move_tera_step chart s b h).1 m,
    run_battles_tera_bound chart⟩

/-- Witness for C8 on a concrete one-battle sequence. -/
theorem c8_tera_at_most_once_witness :
    (∀ b ∈ [battle4], battleKey b = "b4") ∧
      teraCount (run_battles chartNeutral [] [battle4]).2 ≤
        (if teraUsedAt [] "b4" then 0 else 1) :=
  ⟨by decide, (c8_tera_at_most_once chartNeutral).2.2 [battle4] [] "b4" (by decide)⟩

end ShowdownAgent
